import Mathlib

/-!
Verification of the aind-ng-mesh pipeline (src/aind_ng_mesh/io_utils.py,
meshing.py, utils.py) against its specification.

The development shallowly embeds the repository code:

* JSON values are an inductive type whose objects are ordered association
  lists, matching Python dict insertion-order semantics (json.load and
  json.dump preserve key order; dict assignment updates in place or appends).
* the local filesystem is a list of (path, content) writes, a path being a
  list of components;
* fallible Python code is modelled with an explicit optional error value
  (an uncaught exception aborts the remaining statements, keeping the
  writes made so far);
* the s3 client is modelled as a list of upload records tagged with the
  session credentials used to produce them.
-/

/-- JSON values; objects are ordered association lists as produced by
Python json.load on duplicate-free objects. -/
inductive Json : Type where
  | str (s : String) : Json
  | num (n : Int) : Json
  | bool (b : Bool) : Json
  | arr (elems : List Json) : Json
  | obj (fields : List (String × Json)) : Json

/-- Python dict assignment d[k] = v on an ordered association list: an
existing key keeps its position and gets the new value, a new key is
appended at the end. -/
def dictSet (d : List (String × Json)) (k : String) (v : Json) :
    List (String × Json) :=
  if d.any (fun p => p.1 == k) then
    d.map (fun p => if p.1 == k then (k, v) else p)
  else
    d ++ [(k, v)]

/-- Python dict lookup d[k] (first matching key). -/
def dictLookup (d : List (String × Json)) (k : String) : Option Json :=
  (d.find? (fun p => p.1 == k)).map (fun p => p.2)

/-- Embedding of edit_info (io_utils.py lines 224-244) at the level of the
parsed info object: read the object, set the three keys, write it back. -/
def edit_info_obj (info : List (String × Json)) : List (String × Json) :=
  dictSet
    (dictSet
      (dictSet info "type" (Json.str "segmentation"))
      "mesh" (Json.str "mesh"))
    "segment_properties" (Json.str "segment_properties")

theorem find_set_of_any (d : List (String × Json)) (k : String) (v : Json)
    (h : d.any (fun p => p.1 == k) = true) :
    (d.map (fun p => if p.1 == k then (k, v) else p)).find?
        (fun p => p.1 == k) = some (k, v) := by
  induction d with
  | nil => simp at h
  | cons p t ih =>
    by_cases hp : p.1 = k
    · have hpk : (p.1 == k) = true := by simp [hp]
      simp only [List.map_cons, hpk, if_true]
      exact List.find?_cons_of_pos _ (by simp)
    · have hpk : (p.1 == k) = false := by simp [hp]
      have hanyt : t.any (fun p => p.1 == k) = true := by
        simp only [List.any_cons, hpk, Bool.false_or] at h
        exact h
      simp only [List.map_cons, hpk, Bool.false_eq_true, if_false]
      rw [List.find?_cons_of_neg _ (by simp [hp])]
      exact ih hanyt

theorem find_append_of_not_any (d : List (String × Json)) (k : String)
    (v : Json) (h : d.any (fun p => p.1 == k) = false) :
    (d ++ [(k, v)]).find? (fun p => p.1 == k) = some (k, v) := by
  induction d with
  | nil =>
    simp only [List.nil_append]
    exact List.find?_cons_of_pos _ (by simp)
  | cons p t ih =>
    simp only [List.any_cons, Bool.or_eq_false_iff] at h
    rw [List.cons_append, List.find?_cons_of_neg _ (by simp [h.1])]
    exact ih h.2

theorem find_set_other (d : List (String × Json)) (k k' : String) (v : Json)
    (h : k' ≠ k) :
    (d.map (fun p => if p.1 == k then (k, v) else p)).find?
        (fun p => p.1 == k') =
      d.find? (fun p => p.1 == k') := by
  induction d with
  | nil => rfl
  | cons p t ih =>
    by_cases hp : p.1 = k
    · have hpk : (p.1 == k) = true := by simp [hp]
      simp only [List.map_cons, hpk, if_true]
      rw [List.find?_cons_of_neg _ (by simp; exact fun hkk => h hkk.symm),
        List.find?_cons_of_neg _ (by simp [hp]; exact fun hkk => h hkk.symm)]
      exact ih
    · have hpk : (p.1 == k) = false := by simp [hp]
      simp only [List.map_cons, hpk, Bool.false_eq_true, if_false]
      by_cases hp' : p.1 = k'
      · rw [List.find?_cons_of_pos _ (by simp [hp']),
          List.find?_cons_of_pos _ (by simp [hp'])]
      · rw [List.find?_cons_of_neg _ (by simp [hp']),
          List.find?_cons_of_neg _ (by simp [hp'])]
        exact ih

theorem dictLookup_dictSet_self (d : List (String × Json)) (k : String)
    (v : Json) :
    dictLookup (dictSet d k v) k = some v := by
  unfold dictSet dictLookup
  cases hany : d.any (fun p => p.1 == k) with
  | true =>
    simp only [if_true, find_set_of_any d k v hany]
    rfl
  | false =>
    simp only [Bool.false_eq_true, if_false,
      find_append_of_not_any d k v hany]
    rfl

theorem dictLookup_dictSet_ne (d : List (String × Json)) (k k' : String)
    (v : Json) (h : k' ≠ k) :
    dictLookup (dictSet d k v) k' = dictLookup d k' := by
  unfold dictSet dictLookup
  cases hany : d.any (fun p => p.1 == k) with
  | true => rw [if_pos rfl, find_set_other d k k' v h]
  | false =>
    rw [if_neg (by simp), List.find?_append]
    have hk : ((k, v).1 == k') = false := by
      simp
      exact fun hkk => h hkk.symm
    simp [List.find?, hk]

/-- C6: after edit_info runs on a precomputed directory whose info file
holds a JSON object, the info object maps "type" to "segmentation",
"mesh" to "mesh", and "segment_properties" to "segment_properties". -/
theorem edit_info_sets_required_keys (info : List (String × Json)) :
    dictLookup (edit_info_obj info) "type" = some (Json.str "segmentation") ∧
    dictLookup (edit_info_obj info) "mesh" = some (Json.str "mesh") ∧
    dictLookup (edit_info_obj info) "segment_properties" =
      some (Json.str "segment_properties") := by
  unfold edit_info_obj
  refine ⟨?_, ?_, ?_⟩
  · rw [dictLookup_dictSet_ne _ _ _ _ (by decide),
      dictLookup_dictSet_ne _ _ _ _ (by decide)]
    exact dictLookup_dictSet_self _ _ _
  · rw [dictLookup_dictSet_ne _ _ _ _ (by decide)]
    exact dictLookup_dictSet_self _ _ _
  · exact dictLookup_dictSet_self _ _ _

/-- C7: edit_info preserves every key-value pair of the pre-existing info
object other than "type", "mesh" and "segment_properties". -/
theorem edit_info_preserves_other_keys (info : List (String × Json))
    (k : String) (h1 : k ≠ "type") (h2 : k ≠ "mesh")
    (h3 : k ≠ "segment_properties") :
    dictLookup (edit_info_obj info) k = dictLookup info k := by
  unfold edit_info_obj
  rw [dictLookup_dictSet_ne _ _ _ _ h3, dictLookup_dictSet_ne _ _ _ _ h2,
    dictLookup_dictSet_ne _ _ _ _ h1]

theorem edit_info_preserves_other_keys_witness :
    ("num_channels" ≠ "type" ∧ "num_channels" ≠ "mesh" ∧
      "num_channels" ≠ "segment_properties") ∧
    dictLookup (edit_info_obj [("num_channels", Json.num 1)])
        "num_channels" =
      dictLookup [("num_channels", Json.num 1)] "num_channels" :=
  ⟨⟨by decide, by decide, by decide⟩,
    edit_info_preserves_other_keys [("num_channels", Json.num 1)]
      "num_channels" (by decide) (by decide) (by decide)⟩

/-! ## Local filesystem model and the write pipeline -/

/-- Byte strings: contents of binary files and s3 object bodies. -/
abbrev Bytes := List Nat

/-- A filesystem path, as a list of components below some root. -/
abbrev FsPath := List String

/-- Contents of a file: either a JSON document (written by json.dump) or
raw bytes (mesh fragments). -/
inductive FileContent : Type where
  | jsonFile (j : Json) : FileContent
  | rawFile (b : Bytes) : FileContent

/-- Python exceptions relevant to this code.  typeError is what
list(map(str, None)) raises. -/
inductive PyError : Type where
  | typeError : PyError
deriving DecidableEq

/-- A zmesh mesh, abstracted to the only thing save_mesh uses of it: the
byte string produced by its to_precomputed method. -/
structure Mesh : Type where
  to_precomputed : Bytes
deriving DecidableEq

/-- A label volume, abstracted to its shape; the voxel payload is consumed
only by the external tensorstore and zmesh collaborators. -/
structure LabelVolume : Type where
  shape : List Nat
deriving DecidableEq

/-- Embedding of meshing.write_mesh_info (meshing.py lines 61-64): the
mesh directory info file. -/
def write_mesh_info (mesh_dir : FsPath) : FsPath × FileContent :=
  (mesh_dir ++ ["info"],
    FileContent.jsonFile (Json.obj [("@type", Json.str "neuroglancer_legacy_mesh")]))

/-- Embedding of meshing.write_mesh_filenames (meshing.py lines 67-70):
the per-object manifest listing the fragment filename. -/
def write_mesh_filenames (mesh_dir : FsPath) (obj_id : Nat) : FsPath × FileContent :=
  (mesh_dir ++ [Nat.repr obj_id ++ ":0"],
    FileContent.jsonFile (Json.obj
      [("fragments", Json.arr [Json.str (Nat.repr obj_id ++ ":0:0000000000000000")])]))

/-- Embedding of meshing.save_mesh (meshing.py lines 51-58).  The meshes
dict is an ordered association list with distinct keys.  For each object id
it writes the manifest, then the fragment file.  The Python function has no
return statement, so it returns None: hence the second component is none. -/
def save_mesh (meshes : List (Nat × Mesh)) (mesh_dir : FsPath) :
    List (FsPath × FileContent) × Option (List Nat) :=
  (write_mesh_info mesh_dir ::
    (meshes.map (fun m =>
      [write_mesh_filenames mesh_dir m.1,
        (mesh_dir ++ [Nat.repr m.1 ++ ":0:0000000000000000"],
          FileContent.rawFile m.2.to_precomputed)])).flatten,
    none)

/-- The segment-properties info JSON built by write_segment_properties
(io_utils.py lines 263-275) from an actual list of ids. -/
def segment_properties_info (seg_ids : List Nat) : Json :=
  Json.obj
    [("@type", Json.str "neuroglancer_segment_properties"),
      ("inline", Json.obj
        [("ids", Json.arr (seg_ids.map (fun i => Json.str (Nat.repr i)))),
          ("properties", Json.arr
            [Json.obj
              [("id", Json.str "label"),
                ("type", Json.str "label"),
                ("values", Json.arr (seg_ids.map (fun i => Json.str (Nat.repr i))))]])])]

/-- Embedding of write_segment_properties (io_utils.py lines 247-278).
The argument is what write_to_local actually passes: the return value of
save_mesh, hence an Option.  When it is None, list(map(str, seg_ids))
raises TypeError before any directory or file is created. -/
def write_segment_properties (root_dir : FsPath) (seg_ids : Option (List Nat)) :
    List (FsPath × FileContent) × Option PyError :=
  match seg_ids with
  | none => ([], some PyError.typeError)
  | some ids =>
    ([(root_dir ++ ["segment_properties", "info"],
        FileContent.jsonFile (segment_properties_info ids))], none)

/-- Embedding of write_precomputed (io_utils.py lines 188-221) at the
metadata level.  ts.open with create=True synchronously produces the
driver-generated info file, whose parsed fields are the ts_info argument
(an external collaborator output); edit_info then patches it in place.
The chunk payload files written by the tensorstore driver are outside the
JSON-artifact model. -/
def write_precomputed (block : LabelVolume) (ts_info : List (String × Json))
    (path : FsPath) : List (FsPath × FileContent) :=
  [(path ++ ["info"], FileContent.jsonFile (Json.obj (edit_info_obj ts_info)))]

/-- Embedding of write_to_local (io_utils.py lines 107-134): write the
precomputed volume, save the meshes under the mesh subdirectory, then
write the segment properties from save_mesh's return value.  An exception
in a step keeps the earlier writes and aborts the rest. -/
def write_to_local (block : LabelVolume) (ts_info : List (String × Json))
    (meshes : List (Nat × Mesh)) (root_dir : FsPath) :
    List (FsPath × FileContent) × Option PyError :=
  let mesh_dir := root_dir ++ ["mesh"]
  let pre := write_precomputed block ts_info root_dir
  let sm := save_mesh meshes mesh_dir
  let sp := write_segment_properties root_dir sm.2
  (pre ++ sm.1 ++ sp.1, sp.2)

/-- Closed form of write_to_local: the patched volume info, the mesh info,
the per-object manifest and fragment writes, and then the TypeError from
write_segment_properties with the segment-properties file never written. -/
theorem write_to_local_eq (block : LabelVolume)
    (ts_info : List (String × Json)) (meshes : List (Nat × Mesh))
    (root_dir : FsPath) :
    write_to_local block ts_info meshes root_dir =
      ((root_dir ++ ["info"],
          FileContent.jsonFile (Json.obj (edit_info_obj ts_info))) ::
        write_mesh_info (root_dir ++ ["mesh"]) ::
        (meshes.map (fun m =>
          [write_mesh_filenames (root_dir ++ ["mesh"]) m.1,
            (root_dir ++ ["mesh", Nat.repr m.1 ++ ":0:0000000000000000"],
              FileContent.rawFile m.2.to_precomputed)])).flatten,
        some PyError.typeError) := by
  simp [write_to_local, write_precomputed, save_mesh, write_segment_properties,
    List.append_assoc]

/-- C1: write_to_local never emits the segment-properties info file.
save_mesh has no return statement, so obj_ids is None and
write_segment_properties raises TypeError at list(map(str, None)) before
writing anything; every run of write_to_local ends in TypeError with no
file at root_dir/segment_properties/info. -/
theorem write_to_local_segment_properties_missing (block : LabelVolume)
    (ts_info : List (String × Json)) (meshes : List (Nat × Mesh))
    (root_dir : FsPath) :
    (write_to_local block ts_info meshes root_dir).2 = some PyError.typeError ∧
    ((write_to_local block ts_info meshes root_dir).1.all
      (fun w => w.1 != root_dir ++ ["segment_properties", "info"])) = true := by
  rw [write_to_local_eq]
  constructor
  · rfl
  · rw [List.all_eq_true]
    intro w hw
    have hne : w.1 ≠ root_dir ++ ["segment_properties", "info"] := by
      simp only [List.mem_cons] at hw
      rcases hw with hw | hw | hw
      · rw [hw]
        simp
      · rw [hw]
        simp [write_mesh_info]
      · rcases List.exists_of_mem_flatten hw with ⟨l, hl, hwl⟩
        rcases List.mem_map.1 hl with ⟨m, _, hfm⟩
        rw [← hfm] at hwl
        simp only [List.mem_cons, List.mem_singleton, List.not_mem_nil,
          or_false] at hwl
        rcases hwl with hwl | hwl
        · rw [hwl]
          simp [write_mesh_filenames]
        · rw [hwl]
          simp
    simpa using hne

/-! ## read_block -/

/-- Outcome of read_block: which external reader gets invoked on the path. -/
inductive BlockRead : Type where
  | tiffImread (path : String) : BlockRead
  | n5ZarrOpen (path : String) : BlockRead
deriving DecidableEq

/-- Python substring containment, the expression sub in s. -/
def pyContains (s sub : String) : Bool :=
  s.toList.tails.any (fun t => sub.toList.isPrefixOf t)

/-- Embedding of read_block (io_utils.py lines 39-56): an if/elif chain
with no else branch, so a path matching neither test returns None. -/
def read_block (path : String) : Option BlockRead :=
  if pyContains path "tif" then some (BlockRead.tiffImread path)
  else if pyContains path ".n5" then some (BlockRead.n5ZarrOpen path)
  else none

/-- C10: a path containing neither "tif" nor ".n5" makes read_block return
None rather than raise, and any occurrence of "tif" anywhere in the path
selects the TIFF reader regardless of the file extension. -/
theorem read_block_fallthrough_and_tif_priority (path : String) :
    (pyContains path "tif" = false → pyContains path ".n5" = false →
      read_block path = none) ∧
    (pyContains path "tif" = true →
      read_block path = some (BlockRead.tiffImread path)) := by
  constructor
  · intro h1 h2
    simp [read_block, h1, h2]
  · intro h1
    simp [read_block, h1]

theorem read_block_fallthrough_and_tif_priority_witness :
    (pyContains "volume.zarr" "tif" = false ∧
      pyContains "volume.zarr" ".n5" = false ∧
      read_block "volume.zarr" = none) ∧
    (pyContains "stiff.n5" "tif" = true ∧
      read_block "stiff.n5" = some (BlockRead.tiffImread "stiff.n5")) :=
  ⟨⟨by decide, by decide,
      (read_block_fallthrough_and_tif_priority "volume.zarr").1
        (by decide) (by decide)⟩,
    ⟨by decide,
      (read_block_fallthrough_and_tif_priority "stiff.n5").2 (by decide)⟩⟩

/-! ## The asynchronous write in write_precomputed -/

/-- The calls write_precomputed makes in program order, at the level of
the tensorstore future API (io_utils.py lines 204-221). -/
inductive TsEvent : Type where
  | tsOpenResult : TsEvent
  | tsWriteIssued : TsEvent
  | tsWriteResult : TsEvent
  | editInfoCall : TsEvent
deriving DecidableEq

/-- Program-order trace of write_precomputed: ts.open(...).result() is
awaited, dataset.write(block) is issued and bound to write_future, and
edit_info follows immediately; write_future.result() is never called. -/
def write_precomputed_events (block : LabelVolume) : List TsEvent :=
  [TsEvent.tsOpenResult, TsEvent.tsWriteIssued, TsEvent.editInfoCall]

/-- C3: the code never awaits the array-write future before patching the
info file.  The trace of write_precomputed contains no
write_future.result() call at all, so edit_info is sequenced only after
the write is issued, not after it completes.  (The open that creates the
info file is awaited, so the info file itself is complete when read.) -/
theorem write_precomputed_never_awaits_write (block : LabelVolume) :
    write_precomputed_events block =
      [TsEvent.tsOpenResult, TsEvent.tsWriteIssued, TsEvent.editInfoCall] ∧
    ((write_precomputed_events block).all
      (fun e => e != TsEvent.tsWriteResult)) = true := by
  refine ⟨rfl, ?_⟩
  unfold write_precomputed_events
  decide

/-! ## C8: staging-path independence of the JSON artifacts -/

/-- C8 counterexample: at a concrete input, a pipeline run into staging
directory d1 raises TypeError and emits no segment-properties info file at
all, so the claim that two runs both produce that JSON artifact (byte
identically) fails: the artifact does not exist in either run. -/
theorem write_to_local_run_lacks_segment_properties :
    (write_to_local ⟨[10, 10, 10]⟩ [] [(1, ⟨[]⟩), (2, ⟨[]⟩)] ["d1"]).2 =
      some PyError.typeError ∧
    ((write_to_local ⟨[10, 10, 10]⟩ [] [(1, ⟨[]⟩), (2, ⟨[]⟩)] ["d1"]).1.all
      (fun w => w.1 != ["d1", "segment_properties", "info"])) = true := by
  constructor
  · rfl
  · decide

/-- C8 amended: the outputs of write_to_local, indexed by path relative to
the staging directory, are a function of the inputs alone: two runs on the
same label volume and mesh mapping into different staging directories
produce identical relative writes (hence byte-identical JSON artifacts for
everything actually produced: patched volume info, mesh info, per-object
manifests) and raise the identical error; the segment-properties info is
produced in neither run. -/
theorem write_to_local_output_root_independent (block : LabelVolume)
    (ts_info : List (String × Json)) (meshes : List (Nat × Mesh))
    (d1 d2 : FsPath) :
    ((write_to_local block ts_info meshes d1).1.map
        (fun w => (w.1.drop d1.length, w.2)) =
      (write_to_local block ts_info meshes d2).1.map
        (fun w => (w.1.drop d2.length, w.2))) ∧
    (write_to_local block ts_info meshes d1).2 =
      (write_to_local block ts_info meshes d2).2 := by
  rw [write_to_local_eq, write_to_local_eq]
  constructor
  · simp [write_mesh_info, write_mesh_filenames, List.map_map,
      Function.comp_def, List.append_assoc, List.drop_left]
  · rfl

/-! ## The uploader: to_s3 and write_to_s3 -/

/-- A boto3 session; the fields record which credentials it was created
with. -/
structure Session : Type where
  access_id : Option String
  secret_key : Option String
deriving DecidableEq

/-- boto3.Session() as called in to_s3 (io_utils.py line 164): created
with no arguments, so it carries no caller-supplied credentials and falls
back to ambient resolution. -/
def boto3_session_noargs : Session :=
  { access_id := none, secret_key := none }

/-- An object created in the bucket: s3_client.upload_file for regular
files, s3_client.put_object with empty body for directory markers. -/
structure S3Upload : Type where
  bucket : String
  key : String
  body : FileContent

mutual
/-- A local directory tree: regular files (name, content) plus named
subdirectories. -/
inductive FileTree : Type where
  | node (files : List (String × FileContent)) (subdirs : Forest) : FileTree
inductive Forest : Type where
  | nil : Forest
  | cons (name : String) (tree : FileTree) (rest : Forest) : Forest
end

/-- os.path.join of the key prefix and a relative path, as used for s3
keys: empty prefix contributes nothing, a prefix with a trailing slash is
not doubled, otherwise a slash separates the two parts. -/
def osJoin (p r : String) : String :=
  if p = "" then r
  else if p.toList.getLast? = some '/' then p ++ r
  else p ++ "/" ++ r

/-- Relative path components joined with "/", the os.path.relpath result. -/
def renderRel (rel : List String) : String :=
  String.intercalate "/" rel

/-- Directory-marker uploads emitted for the subdirectories of one walk
triple (io_utils.py lines 177-185): key is the joined relative path plus a
trailing slash, body is the empty string. -/
def dir_markers (bucket : String) ( s3_prefix : String) (rel : List String) :
    Forest → List S3Upload
  | Forest.nil => []
  | Forest.cons name _ rest =>
    S3Upload.mk bucket (osJoin s3_prefix (renderRel (rel ++ [name])) ++ "/")
        (FileContent.rawFile []) ::
      dir_markers bucket s3_prefix rel rest

mutual
/-- Embedding of the os.walk loop of to_s3 (io_utils.py lines 168-185):
for each directory, upload its regular files, then put one marker per
subdirectory, then recurse into the subdirectories in order. -/
def to_s3_walk (bucket : String) ( s3_prefix : String) (rel : List String) :
    FileTree → List S3Upload
  | FileTree.node files subdirs =>
    files.map (fun f =>
        S3Upload.mk bucket (osJoin s3_prefix (renderRel (rel ++ [f.1]))) f.2)
      ++ dir_markers bucket s3_prefix rel subdirs
      ++ to_s3_walk_forest bucket s3_prefix rel subdirs
def to_s3_walk_forest (bucket : String) ( s3_prefix : String)
    (rel : List String) : Forest → List S3Upload
  | Forest.nil => []
  | Forest.cons name tree rest =>
    to_s3_walk bucket s3_prefix (rel ++ [name]) tree
      ++ to_s3_walk_forest bucket s3_prefix rel rest
end

/-- Embedding of to_s3 (io_utils.py lines 137-185): create a session with
boto3.Session() - the access_id and secret_access_key parameters are never
consulted - and walk the directory, uploading files and markers. -/
def to_s3 (directory : FileTree) (bucket : String) ( s3_prefix : String)
    (access_id secret_access_key : Option String) :
    Session × List S3Upload :=
  (boto3_session_noargs, to_s3_walk bucket s3_prefix [] directory)

mutual
/-- The files of a tree with their relative paths (specification-side
characterization of the directory contents, section 4.3 of the spec). -/
def treeFiles : FileTree → List (List String × FileContent)
  | FileTree.node files subdirs =>
    files.map (fun f => ([f.1], f.2)) ++ forestFiles subdirs
def forestFiles : Forest → List (List String × FileContent)
  | Forest.nil => []
  | Forest.cons name tree rest =>
    (treeFiles tree).map (fun q => (name :: q.1, q.2)) ++ forestFiles rest
end

mutual
/-- The subdirectories of a tree, as relative paths, empty ones included
(specification-side characterization). -/
def treeDirs : FileTree → List (List String)
  | FileTree.node _ subdirs => forestDirs subdirs
def forestDirs : Forest → List (List String)
  | Forest.nil => []
  | Forest.cons name tree rest =>
    [name] :: ((treeDirs tree).map (fun q => name :: q) ++ forestDirs rest)
end


mutual
theorem mem_walk_of_treeFiles (bucket pfx : String) (t : FileTree) :
    ∀ (rel r : List String) (c : FileContent), (r, c) ∈ treeFiles t →
      S3Upload.mk bucket (osJoin pfx (renderRel (rel ++ r))) c ∈
        to_s3_walk bucket pfx rel t :=
  match t with
  | FileTree.node files subdirs => by
    intro rel r c h
    simp only [treeFiles] at h
    simp only [to_s3_walk]
    rcases List.mem_append.1 h with h | h
    · rcases List.mem_map.1 h with ⟨f, hf, hout⟩
      have hr : r = [f.1] := (congrArg Prod.fst hout).symm
      have hc : c = f.2 := (congrArg Prod.snd hout).symm
      subst hr
      subst hc
      exact List.mem_append_left _
        (List.mem_append_left _ (List.mem_map.2 ⟨f, hf, rfl⟩))
    · exact List.mem_append_right _
        (mem_walkForest_of_forestFiles bucket pfx subdirs rel r c h)
theorem mem_walkForest_of_forestFiles (bucket pfx : String) (f : Forest) :
    ∀ (rel r : List String) (c : FileContent), (r, c) ∈ forestFiles f →
      S3Upload.mk bucket (osJoin pfx (renderRel (rel ++ r))) c ∈
        to_s3_walk_forest bucket pfx rel f :=
  match f with
  | Forest.nil => by
    intro rel r c h
    simp [forestFiles] at h
  | Forest.cons name tree rest => by
    intro rel r c h
    simp only [forestFiles] at h
    simp only [to_s3_walk_forest]
    rcases List.mem_append.1 h with h | h
    · rcases List.mem_map.1 h with ⟨q, hq, hout⟩
      have hr : r = name :: q.1 := (congrArg Prod.fst hout).symm
      have hc : c = q.2 := (congrArg Prod.snd hout).symm
      subst hr
      subst hc
      have hmem := mem_walk_of_treeFiles bucket pfx tree (rel ++ [name])
        q.1 q.2 (by rw [Prod.mk.eta]; exact hq)
      rw [List.append_assoc, List.singleton_append] at hmem
      exact List.mem_append_left _ hmem
    · exact List.mem_append_right _
        (mem_walkForest_of_forestFiles bucket pfx rest rel r c h)
end

mutual
theorem mem_walk_of_treeDirs (bucket pfx : String) (t : FileTree) :
    ∀ (rel d : List String), d ∈ treeDirs t →
      S3Upload.mk bucket (osJoin pfx (renderRel (rel ++ d)) ++ "/")
          (FileContent.rawFile []) ∈
        to_s3_walk bucket pfx rel t :=
  match t with
  | FileTree.node files subdirs => by
    intro rel d h
    simp only [treeDirs] at h
    simp only [to_s3_walk]
    have hmem := mem_walkForest_of_forestDirs bucket pfx subdirs rel d h
    rcases List.mem_append.1 hmem with h2 | h2
    · exact List.mem_append_left _ (List.mem_append_right _ h2)
    · exact List.mem_append_right _ h2
theorem mem_walkForest_of_forestDirs (bucket pfx : String) (f : Forest) :
    ∀ (rel d : List String), d ∈ forestDirs f →
      S3Upload.mk bucket (osJoin pfx (renderRel (rel ++ d)) ++ "/")
          (FileContent.rawFile []) ∈
        dir_markers bucket pfx rel f ++ to_s3_walk_forest bucket pfx rel f :=
  match f with
  | Forest.nil => by
    intro rel d h
    simp [forestDirs] at h
  | Forest.cons name tree rest => by
    intro rel d h
    simp only [forestDirs, List.mem_cons] at h
    simp only [dir_markers, to_s3_walk_forest]
    rcases h with h | h
    · subst h
      exact List.mem_append_left _ (List.mem_cons_self _ _)
    · rcases List.mem_append.1 h with h | h
      · rcases List.mem_map.1 h with ⟨q, hq, hout⟩
        have hmem := mem_walk_of_treeDirs bucket pfx tree (rel ++ [name]) q hq
        rw [List.append_assoc, List.singleton_append] at hmem
        subst hout
        exact List.mem_append_right _ (List.mem_append_left _ hmem)
      · have hmem := mem_walkForest_of_forestDirs bucket pfx rest rel d h
        rcases List.mem_append.1 hmem with h2 | h2
        · exact List.mem_append_left _ (List.mem_cons_of_mem _ h2)
        · exact List.mem_append_right _ (List.mem_append_right _ h2)
end

theorem osJoin_eq (p s : String) (h1 : p ≠ "")
    (h2 : p.toList.getLast? ≠ some '/') :
    osJoin p s = p ++ "/" ++ s := by
  unfold osJoin
  rw [if_neg h1, if_neg h2]

/-- C4: to_s3 uploads every regular file at relative path r of the source
tree to key prefix/r with identical content, and creates a zero-byte
marker object at key prefix/d/ for every subdirectory d, empty
subdirectories included. -/
theorem to_s3_uploads_files_and_markers (t : FileTree)
    (bucket pfx : String) (access_id secret_access_key : Option String)
    (h1 : pfx ≠ "") (h2 : pfx.toList.getLast? ≠ some '/') :
    (∀ (r : List String) (c : FileContent), (r, c) ∈ treeFiles t →
      S3Upload.mk bucket (pfx ++ "/" ++ renderRel r) c ∈
        (to_s3 t bucket pfx access_id secret_access_key).2) ∧
    (∀ d ∈ treeDirs t,
      S3Upload.mk bucket (pfx ++ "/" ++ renderRel d ++ "/")
          (FileContent.rawFile []) ∈
        (to_s3 t bucket pfx access_id secret_access_key).2) := by
  constructor
  · intro r c h
    have hmem := mem_walk_of_treeFiles bucket pfx t [] r c h
    rw [List.nil_append, osJoin_eq pfx _ h1 h2] at hmem
    exact hmem
  · intro d h
    have hmem := mem_walk_of_treeDirs bucket pfx t [] d h
    rw [List.nil_append, osJoin_eq pfx _ h1 h2] at hmem
    exact hmem

theorem to_s3_uploads_files_and_markers_witness :
    (S3Upload.mk "bkt" "p/a/b.txt" (FileContent.rawFile [7]) ∈
      (to_s3
        (FileTree.node []
          (Forest.cons "a"
            (FileTree.node [("b.txt", FileContent.rawFile [7])] Forest.nil)
            Forest.nil))
        "bkt" "p" none none).2) ∧
    (S3Upload.mk "bkt" "p/a/" (FileContent.rawFile []) ∈
      (to_s3
        (FileTree.node []
          (Forest.cons "a"
            (FileTree.node [("b.txt", FileContent.rawFile [7])] Forest.nil)
            Forest.nil))
        "bkt" "p" none none).2) := by
  constructor
  · exact (to_s3_uploads_files_and_markers
      (FileTree.node []
        (Forest.cons "a"
          (FileTree.node [("b.txt", FileContent.rawFile [7])] Forest.nil)
          Forest.nil))
      "bkt" "p" none none (by decide) (by decide)).1
      ["a", "b.txt"] (FileContent.rawFile [7])
      (by simp [treeFiles, forestFiles])
  · exact (to_s3_uploads_files_and_markers
      (FileTree.node []
        (Forest.cons "a"
          (FileTree.node [("b.txt", FileContent.rawFile [7])] Forest.nil)
          Forest.nil))
      "bkt" "p" none none (by decide) (by decide)).2
      ["a"] (by simp [treeDirs, forestDirs])

/-- The upload step of write_to_s3 restricted to the staged regular files:
each staged file is uploaded to the key obtained by joining the s3 prefix
with its path relative to the staging directory.  Like to_s3, it creates
its session with boto3.Session() and never consults the two credential
parameters. -/
def to_s3_files (staged : List (FsPath × FileContent)) (upload_dir : FsPath)
    (bucket : String) ( s3_prefix : String)
    (access_id secret_access_key : Option String) :
    Session × List S3Upload :=
  (boto3_session_noargs,
    staged.map (fun w =>
      S3Upload.mk bucket
        (osJoin s3_prefix (renderRel (w.1.drop upload_dir.length))) w.2))

/-- Observable outcome of a write_to_s3 call: the local writes made, the
uploads performed, whether shutil.rmtree(upload_dir) ran, and the error
the call raised, if any. -/
structure S3WriteResult : Type where
  writes : List (FsPath × FileContent)
  uploads : List S3Upload
  removed_upload_dir : Bool
  error : Option PyError

/-- Embedding of write_to_s3 (io_utils.py lines 59-104): stage everything
under root_dir/upload_dir with write_to_local, then upload with to_s3,
then shutil.rmtree the staging directory.  An uncaught exception aborts
the remaining statements, so the rmtree runs only when the preceding steps
finish; the upload branch uses to_s3_files on the staged files. -/
def write_to_s3 (block : LabelVolume) (ts_info : List (String × Json))
    (meshes : List (Nat × Mesh)) (root_dir : FsPath) (bucket : String)
    ( s3_prefix : String) (access_id access_key : Option String) :
    S3WriteResult :=
  let upload_dir := root_dir ++ ["upload_dir"]
  let loc := write_to_local block ts_info meshes upload_dir
  match loc.2 with
  | some e => S3WriteResult.mk loc.1 [] false (some e)
  | none =>
    S3WriteResult.mk loc.1
      (to_s3_files loc.1 upload_dir bucket s3_prefix access_id access_key).2
      true none

/-- C2 counterexample: a concrete write_to_s3 call that raises leaves the
staging tree in place - removed_upload_dir is false and the staged info
file is still present - so the staging tree is not removed unconditionally
and in particular not on a failed run. -/
theorem write_to_s3_failed_run_keeps_staging :
    (write_to_s3 ⟨[10, 10, 10]⟩ [] [(1, ⟨[]⟩)] ["root"] "bkt" "pre"
      none none).removed_upload_dir = false ∧
    (write_to_s3 ⟨[10, 10, 10]⟩ [] [(1, ⟨[]⟩)] ["root"] "bkt" "pre"
      none none).error = some PyError.typeError ∧
    ((write_to_s3 ⟨[10, 10, 10]⟩ [] [(1, ⟨[]⟩)] ["root"] "bkt" "pre"
      none none).writes.any
        (fun w => w.1 == ["root", "upload_dir", "info"])) = true := by
  refine ⟨rfl, rfl, ?_⟩
  decide

/-- C2 amended: write_to_s3 removes the staging directory only when every
preceding step completes without raising: deletion is equivalent to the
absence of an error.  With the current code every call raises TypeError
inside write_to_local before any upload, so the staging tree is never
removed and nothing is uploaded. -/
theorem write_to_s3_removes_staging_only_on_success (block : LabelVolume)
    (ts_info : List (String × Json)) (meshes : List (Nat × Mesh))
    (root_dir : FsPath) (bucket : String) ( s3_prefix : String)
    (access_id access_key : Option String) :
    ((write_to_s3 block ts_info meshes root_dir bucket s3_prefix access_id
        access_key).removed_upload_dir = true ↔
      (write_to_s3 block ts_info meshes root_dir bucket s3_prefix access_id
        access_key).error = none) ∧
    (write_to_s3 block ts_info meshes root_dir bucket s3_prefix access_id
      access_key).removed_upload_dir = false ∧
    (write_to_s3 block ts_info meshes root_dir bucket s3_prefix access_id
      access_key).error = some PyError.typeError ∧
    (write_to_s3 block ts_info meshes root_dir bucket s3_prefix access_id
      access_key).uploads = [] := by
  refine ⟨?_, rfl, rfl, rfl⟩
  have hrem : (write_to_s3 block ts_info meshes root_dir bucket s3_prefix
      access_id access_key).removed_upload_dir = false := rfl
  have herr : (write_to_s3 block ts_info meshes root_dir bucket s3_prefix
      access_id access_key).error = some PyError.typeError := rfl
  rw [hrem, herr]
  simp

/-- C9: the access_id and secret_access_key parameters of to_s3, and the
corresponding parameters of write_to_s3, have no effect: the session is
created by boto3.Session() with no arguments, so any two credential pairs
give identical sessions and identical uploads. -/
theorem credentials_have_no_effect (tree : FileTree) (bucket pfx : String)
    (a1 k1 a2 k2 : Option String) (block : LabelVolume)
    (ts_info : List (String × Json)) (meshes : List (Nat × Mesh))
    (root_dir : FsPath) :
    to_s3 tree bucket pfx a1 k1 = to_s3 tree bucket pfx a2 k2 ∧
    (to_s3 tree bucket pfx a1 k1).1 = boto3_session_noargs ∧
    write_to_s3 block ts_info meshes root_dir bucket pfx a1 k1 =
      write_to_s3 block ts_info meshes root_dir bucket pfx a2 k2 :=
  ⟨rfl, rfl, rfl⟩

/-! ## Decimal rendering facts, for the mesh file names

save_mesh and write_mesh_filenames name files with the Python str() of the
object id; the embedding uses Nat.repr.  The lemmas below establish that
decimal rendering consists of digits, is nonempty, evaluates back to the
number, and hence is injective - which is what makes the seven mesh
directory file names pairwise distinct. -/

/-- Decimal value of a digit string, most significant first. -/
def valDigits (l : List Char) : Nat :=
  l.foldl (fun a c => 10 * a + (c.toNat - 48)) 0

theorem digitChar_toNat (d : Nat) (h : d < 10) :
    (Nat.digitChar d).toNat = 48 + d := by
  interval_cases d <;> decide

theorem digitChar_isDigit (d : Nat) (h : d < 10) :
    (Nat.digitChar d).isDigit = true := by
  interval_cases d <;> decide

theorem toDigitsCore_spec (fuel : Nat) :
    ∀ (n : Nat) (ds : List Char), n < fuel →
      ∃ l : List Char, Nat.toDigitsCore 10 fuel n ds = l ++ ds ∧ l ≠ [] ∧
        (∀ c ∈ l, c.isDigit = true) ∧ valDigits l = n := by
  induction fuel with
  | zero =>
    intro n ds h
    exact absurd h (Nat.not_lt_zero n)
  | succ f ih =>
    intro n ds h
    by_cases h10 : n / 10 = 0
    · have hn10 : n < 10 := (Nat.div_eq_zero_iff (by norm_num)).1 h10
      refine ⟨[Nat.digitChar (n % 10)], ?_, by simp, ?_, ?_⟩
      · simp [Nat.toDigitsCore, h10]
      · intro c hc
        simp only [List.mem_singleton] at hc
        rw [hc]
        exact digitChar_isDigit _ (Nat.mod_lt _ (by norm_num))
      · rw [valDigits, List.foldl_cons, List.foldl_nil,
          digitChar_toNat _ (Nat.mod_lt _ (by norm_num))]
        omega
    · have hge : 10 ≤ n := by
        by_contra hlt
        exact h10 (Nat.div_eq_of_lt (by omega))
      have hlt : n / 10 < f := by
        have h1 : n / 10 < n := Nat.div_lt_self (by omega) (by norm_num)
        omega
      rcases ih (n / 10) (Nat.digitChar (n % 10) :: ds) hlt with
        ⟨l, heq, hne, hdig, hval⟩
      refine ⟨l ++ [Nat.digitChar (n % 10)], ?_, by simp, ?_, ?_⟩
      · rw [Nat.toDigitsCore]
        simp only [h10, if_false]
        rw [heq, List.append_cons]
      · intro c hc
        rcases List.mem_append.1 hc with hc | hc
        · exact hdig c hc
        · simp only [List.mem_singleton] at hc
          rw [hc]
          exact digitChar_isDigit _ (Nat.mod_lt _ (by norm_num))
      · rw [valDigits, List.foldl_append]
        have hv : List.foldl (fun a c => 10 * a + (c.toNat - 48)) 0 l
            = n / 10 := hval
        rw [hv, List.foldl_cons, List.foldl_nil,
          digitChar_toNat _ (Nat.mod_lt _ (by norm_num))]
        omega

/-- The decimal rendering of n: nonempty, all digits, and it evaluates
back to n. -/
theorem repr_toList_spec (n : Nat) :
    (Nat.repr n).toList ≠ [] ∧
    (∀ c ∈ (Nat.repr n).toList, c.isDigit = true) ∧
    valDigits (Nat.repr n).toList = n := by
  rcases toDigitsCore_spec (n + 1) n [] (Nat.lt_succ_self n) with
    ⟨l, heq, hne, hdig, hval⟩
  have hrepr : (Nat.repr n).toList = l := by
    show (Nat.toDigits 10 n).asString.toList = l
    rw [Nat.toDigits, heq, List.append_nil]
    rfl
  rw [hrepr]
  exact ⟨hne, hdig, hval⟩

theorem repr_injective (m n : Nat) (h : Nat.repr m = Nat.repr n) : m = n := by
  have hm := (repr_toList_spec m).2.2
  have hn := (repr_toList_spec n).2.2
  rw [← hm, ← hn, h]

theorem toList_append (s t : String) :
    (s ++ t).toList = s.toList ++ t.toList :=
  String.data_append s t

theorem takeWhile_append_cons (p : Char → Bool) :
    ∀ (l1 : List Char), (∀ x ∈ l1, p x = true) →
    ∀ (c : Char) (l2 : List Char), p c = false →
      (l1 ++ c :: l2).takeWhile p = l1 ∧
      (l1 ++ c :: l2).dropWhile p = c :: l2
  | [] => by
    intro h c l2 hc
    simp [List.takeWhile_cons, List.dropWhile_cons, hc]
  | x :: t => by
    intro h c l2 hc
    have hx : p x = true := h x (List.mem_cons_self x t)
    have iht := takeWhile_append_cons p t
      (fun y hy => h y (List.mem_cons_of_mem x hy)) c l2 hc
    simp only [List.cons_append, List.takeWhile_cons, List.dropWhile_cons,
      hx, if_true]
    exact ⟨by rw [iht.1], by rw [iht.2]⟩

/-- Splitting a decimal rendering followed by a non-digit: if the two
concatenations agree, the numbers agree and the suffixes agree. -/
theorem repr_append_eq_split (a b : Nat) (s t : List Char) (c1 c2 : Char)
    (hc1 : c1.isDigit = false) (hc2 : c2.isDigit = false)
    (h : (Nat.repr a).toList ++ c1 :: s = (Nat.repr b).toList ++ c2 :: t) :
    a = b ∧ c1 :: s = c2 :: t := by
  have ha := repr_toList_spec a
  have hb := repr_toList_spec b
  have hta := takeWhile_append_cons Char.isDigit (Nat.repr a).toList
    ha.2.1 c1 s hc1
  have htb := takeWhile_append_cons Char.isDigit (Nat.repr b).toList
    hb.2.1 c2 t hc2
  have hl : (Nat.repr a).toList = (Nat.repr b).toList := by
    rw [← hta.1, ← htb.1, h]
  constructor
  · calc a = valDigits (Nat.repr a).toList := ha.2.2.symm
      _ = valDigits (Nat.repr b).toList := by rw [hl]
      _ = b := hb.2.2
  · rw [← hta.2, ← htb.2, h]

theorem repr_append_str_split (x y : Nat) (u v : String) (c1 c2 : Char)
    (s1 s2 : List Char) (hu : u.toList = c1 :: s1) (hv : v.toList = c2 :: s2)
    (hc1 : c1.isDigit = false) (hc2 : c2.isDigit = false)
    (h : Nat.repr x ++ u = Nat.repr y ++ v) : x = y ∧ u = v := by
  have hl := congrArg String.toList h
  rw [toList_append, toList_append, hu, hv] at hl
  have hsplit := repr_append_eq_split x y s1 s2 c1 c2 hc1 hc2 hl
  refine ⟨hsplit.1, ?_⟩
  apply String.ext
  show u.toList = v.toList
  rw [hu, hv, hsplit.2]

theorem info_ne_repr_append (x : Nat) (u : String) :
    "info" ≠ Nat.repr x ++ u := by
  intro h
  have hl := congrArg String.toList h
  rw [toList_append] at hl
  have ha := repr_toList_spec x
  rcases hrl : (Nat.repr x).toList with _ | ⟨c, rest⟩
  · exact ha.1 hrl
  · rw [hrl, List.cons_append] at hl
    have hinfo : "info".toList = 'i' :: ['n', 'f', 'o'] := rfl
    rw [hinfo] at hl
    injection hl with h1 h2
    have hd := ha.2.1 c (by rw [hrl]; exact List.mem_cons_self _ _)
    rw [← h1] at hd
    exact absurd hd (by decide)

theorem manifest_name_inj (x y : Nat)
    (h : Nat.repr x ++ ":0" = Nat.repr y ++ ":0") : x = y :=
  (repr_append_str_split x y ":0" ":0" ':' ':' ['0'] ['0'] rfl rfl
    (by decide) (by decide) h).1

theorem fragment_name_inj (x y : Nat)
    (h : Nat.repr x ++ ":0:0000000000000000" =
      Nat.repr y ++ ":0:0000000000000000") : x = y :=
  (repr_append_str_split x y ":0:0000000000000000" ":0:0000000000000000"
    ':' ':' "0:0000000000000000".toList "0:0000000000000000".toList rfl rfl
    (by decide) (by decide) h).1

theorem manifest_ne_fragment (x y : Nat) :
    Nat.repr x ++ ":0" ≠ Nat.repr y ++ ":0:0000000000000000" := by
  intro h
  have hsplit := repr_append_str_split x y ":0" ":0:0000000000000000"
    ':' ':' ['0'] "0:0000000000000000".toList rfl rfl
    (by decide) (by decide) h
  exact absurd hsplit.2 (by decide)

/-- C5: for a mesh mapping with three distinct keys a, b, c, save_mesh
produces exactly one info file, and per id one manifest {id}:0 whose
content is the JSON object with "fragments" equal to the singleton list
holding its own fragment filename {id}:0:0000000000000000, and one
fragment file with the mesh's precomputed bytes; the seven file names are
pairwise distinct. -/
theorem save_mesh_writes_exactly (a b c : Nat) (ma mb mc : Mesh)
    (mesh_dir : FsPath) (hab : a ≠ b) (hac : a ≠ c) (hbc : b ≠ c) :
    (save_mesh [(a, ma), (b, mb), (c, mc)] mesh_dir).1 =
      [(mesh_dir ++ ["info"],
          FileContent.jsonFile
            (Json.obj [("@type", Json.str "neuroglancer_legacy_mesh")])),
        (mesh_dir ++ [Nat.repr a ++ ":0"],
          FileContent.jsonFile (Json.obj [("fragments",
            Json.arr [Json.str (Nat.repr a ++ ":0:0000000000000000")])])),
        (mesh_dir ++ [Nat.repr a ++ ":0:0000000000000000"],
          FileContent.rawFile ma.to_precomputed),
        (mesh_dir ++ [Nat.repr b ++ ":0"],
          FileContent.jsonFile (Json.obj [("fragments",
            Json.arr [Json.str (Nat.repr b ++ ":0:0000000000000000")])])),
        (mesh_dir ++ [Nat.repr b ++ ":0:0000000000000000"],
          FileContent.rawFile mb.to_precomputed),
        (mesh_dir ++ [Nat.repr c ++ ":0"],
          FileContent.jsonFile (Json.obj [("fragments",
            Json.arr [Json.str (Nat.repr c ++ ":0:0000000000000000")])])),
        (mesh_dir ++ [Nat.repr c ++ ":0:0000000000000000"],
          FileContent.rawFile mc.to_precomputed)] ∧
    List.Nodup ["info",
      Nat.repr a ++ ":0", Nat.repr a ++ ":0:0000000000000000",
      Nat.repr b ++ ":0", Nat.repr b ++ ":0:0000000000000000",
      Nat.repr c ++ ":0", Nat.repr c ++ ":0:0000000000000000"] := by
  constructor
  · simp [save_mesh, write_mesh_info, write_mesh_filenames]
  · have hma : ∀ x y : Nat, x ≠ y →
        Nat.repr x ++ ":0" ≠ Nat.repr y ++ ":0" :=
      fun x y hxy h => hxy (manifest_name_inj x y h)
    have hfr : ∀ x y : Nat, x ≠ y →
        Nat.repr x ++ ":0:0000000000000000" ≠
          Nat.repr y ++ ":0:0000000000000000" :=
      fun x y hxy h => hxy (fragment_name_inj x y h)
    simp only [List.nodup_cons, List.mem_cons, List.mem_singleton,
      List.not_mem_nil, or_false, not_or, List.nodup_nil,
      not_false_eq_true, and_true]
    refine ⟨⟨?_, ?_, ?_, ?_, ?_, ?_⟩, ⟨?_, ?_, ?_, ?_, ?_⟩,
      ⟨?_, ?_, ?_, ?_⟩, ⟨?_, ?_, ?_⟩, ⟨?_, ?_⟩, ?_⟩
    · exact info_ne_repr_append a ":0"
    · exact info_ne_repr_append a ":0:0000000000000000"
    · exact info_ne_repr_append b ":0"
    · exact info_ne_repr_append b ":0:0000000000000000"
    · exact info_ne_repr_append c ":0"
    · exact info_ne_repr_append c ":0:0000000000000000"
    · exact manifest_ne_fragment a a
    · exact hma a b hab
    · exact manifest_ne_fragment a b
    · exact hma a c hac
    · exact manifest_ne_fragment a c
    · exact fun h => manifest_ne_fragment b a h.symm
    · exact hfr a b hab
    · exact fun h => manifest_ne_fragment c a h.symm
    · exact hfr a c hac
    · exact manifest_ne_fragment b b
    · exact hma b c hbc
    · exact manifest_ne_fragment b c
    · exact fun h => manifest_ne_fragment c b h.symm
    · exact hfr b c hbc
    · exact manifest_ne_fragment c c

theorem save_mesh_writes_exactly_witness :
    ((1 : Nat) ≠ 2 ∧ (1 : Nat) ≠ 3 ∧ (2 : Nat) ≠ 3) ∧
    ((save_mesh [(1, ⟨[5]⟩), (2, ⟨[6]⟩), (3, ⟨[7]⟩)] ["mesh"]).1 =
      [(["mesh", "info"],
          FileContent.jsonFile
            (Json.obj [("@type", Json.str "neuroglancer_legacy_mesh")])),
        (["mesh", "1:0"],
          FileContent.jsonFile (Json.obj [("fragments",
            Json.arr [Json.str "1:0:0000000000000000"])])),
        (["mesh", "1:0:0000000000000000"], FileContent.rawFile [5]),
        (["mesh", "2:0"],
          FileContent.jsonFile (Json.obj [("fragments",
            Json.arr [Json.str "2:0:0000000000000000"])])),
        (["mesh", "2:0:0000000000000000"], FileContent.rawFile [6]),
        (["mesh", "3:0"],
          FileContent.jsonFile (Json.obj [("fragments",
            Json.arr [Json.str "3:0:0000000000000000"])])),
        (["mesh", "3:0:0000000000000000"], FileContent.rawFile [7])] ∧
      List.Nodup ["info", "1:0", "1:0:0000000000000000",
        "2:0", "2:0:0000000000000000", "3:0", "3:0:0000000000000000"]) :=
  ⟨⟨by decide, by decide, by decide⟩,
    save_mesh_writes_exactly 1 2 3 ⟨[5]⟩ ⟨[6]⟩ ⟨[7]⟩ ["mesh"]
      (by decide) (by decide) (by decide)⟩
